import Mathlib

/-!
Shallow embedding of `constph.py` (class `MonteCarloTitration`), the Monte Carlo
titration driver of this repository.

Modelling conventions:

* Python floats are modelled as rationals (`ℚ`); the two transcendental library
  calls of the source, `math.log(10)` and `math.exp`, are kept abstract as a
  parameter `ln10 : ℚ` and a parameter `mexp : ℚ → ℚ`, since their values come
  from libm and no claim depends on them numerically.  The module constant
  `kB = BOLTZMANN_CONSTANT_kB * AVOGADRO_CONSTANT_NA` (an external physical
  constant from `simtk.unit`) is likewise a parameter `kB : ℚ`.
* `sys.float_info.epsilon` is the concrete IEEE double epsilon `2 ^ (-52)`,
  modelled by `float_eps` below.
* OpenMM `Force` objects are modelled by the record `Force`; the source holds
  Python references to the forces of the `System` both in `system` and in
  `self.forces_to_update`, so the state record stores the forces once (field
  `forces`) and `forces_to_update` stores indices into that list, which models
  the reference aliasing of the source.
* The energy oracle (`context.getState(getEnergy=True)`) is a function
  `ctx : List Force → ℚ × ℚ` returning (potential, kinetic) as a function of
  the force parameters most recently pushed, which models the contract that the
  context reflects the parameters last written through the forces.
* A Python `raise` is modelled by `Except.error`; since a raised exception
  leaves already-performed mutations in place, every mutating method returns
  `Except String α × MCTitration` where the second component is the state at
  the moment of the raise.
* The `random` module draws of one `update` attempt are supplied as explicit
  inputs (`AttemptDraws`): the sampled group indices (`random.sample`), the
  per-group proposed state (`random.choice`), and the acceptance uniform
  variate (`random.random`).
-/

/-- `sys.float_info.epsilon` for IEEE binary64: `2.220446049250313e-16`. -/
def float_eps : ℚ := 1 / 2 ^ 52

/-- One OpenMM force object, as far as `constph.py` touches it: its class name,
its per-particle parameters (for `NonbondedForce`: charge, sigma, epsilon; for
`GBSAOBCForce`: charge, radius, scaleFactor), and its exception parameters
(particle1, particle2, chargeProd, sigma, epsilon). -/
structure Force where
  classname : String
  particles : List (ℚ × ℚ × ℚ)
  exceptions : List (ℕ × ℕ × ℚ × ℚ × ℚ)
deriving DecidableEq, Repr

instance : Inhabited Force := ⟨⟨"", [], []⟩⟩

/-- One titration state record, as built by `addTitrationState`
(`state['pKref']`, `state['relative_energy']`, `state['charges']`,
`state['proton_count']`). -/
structure TitrationState where
  pKref : ℚ
  relative_energy : ℚ
  charges : List ℚ
  proton_count : ℤ
deriving DecidableEq, Repr

instance : Inhabited TitrationState := ⟨⟨0, 0, [], 0⟩⟩

/-- One titratable group record, as built by `addTitratableGroup`
(`group['atom_indices']`, `group['titration_states']`, `group['index']`,
`group['nstates']`, `group['exception_indices']`). -/
structure TitrationGroup where
  atom_indices : List ℕ
  titration_states : List TitrationState
  index : ℕ
  nstates : ℕ
  exception_indices : List ℕ
deriving DecidableEq, Repr

instance : Inhabited TitrationGroup := ⟨⟨[], [], 0, 0, []⟩⟩

/-- The mutable state of a `MonteCarloTitration` object: simulation conditions,
the force objects of the system (`forces`) with the references stored in
`self.forces_to_update` modelled as indices into `forces`, the titration
bookkeeping (`self.titrationGroups`, `self.titrationStates` -- the latter holds
`None` until a state is added, hence `Option ℕ` entries), the `self.atomExceptions`
table from the prmtop file, and the sampler statistics. -/
structure MCTitration where
  temperature : ℚ
  pH : ℚ
  coulomb14scale : ℚ
  atomExceptions : List (List ℕ)
  forces : List Force
  forces_to_update : List ℕ
  titrationGroups : List TitrationGroup
  titrationStates : List (Option ℕ)
  nattempted : ℕ
  naccepted : ℕ
  work_history : List (List (Option ℕ) × List (Option ℕ) × ℚ)
  nattempts_per_update : ℕ
  simultaneous_proposal_probability : ℚ
deriving DecidableEq, Repr

/-- `getNumTitratableGroups`: `len(self.titrationGroups)`. -/
def getNumTitratableGroups (self : MCTitration) : ℕ :=
  self.titrationGroups.length

/-- `getNumTitrationStates`: validates the group index
(`titration_group_index not in range(...)` raises), then returns
`len(self.titrationGroups[i]['titration_states'])`. -/
def getNumTitrationStates (self : MCTitration) (titration_group_index : ℕ) :
    Except String ℕ :=
  if titration_group_index < getNumTitratableGroups self then
    Except.ok ((self.titrationGroups.getD titration_group_index default).titration_states.length)
  else
    Except.error "Invalid titratable group requested."

/-- `getTitrationState`: validates the group index, then returns
`self.titrationStates[titration_group_index]` (which is `None` before any
state has been added, hence the `Option ℕ` payload); an out-of-range read of
the `titrationStates` list itself would be a Python `IndexError`. -/
def getTitrationState (self : MCTitration) (titration_group_index : ℕ) :
    Except String (Option ℕ) :=
  if titration_group_index < getNumTitratableGroups self then
    match self.titrationStates.get? titration_group_index with
    | some v => Except.ok v
    | none => Except.error "IndexError"
  else
    Except.error "Invalid titratable group requested."

/-- `getTitrationStates`: `list(self.titrationStates)` (a copy). -/
def getTitrationStates (self : MCTitration) : List (Option ℕ) :=
  self.titrationStates

/-- `getTitrationStateTotalCharge`: after the group-validity check, the source
reads the names `titration_state_index` and `titratable_group_index`, which are
bound nowhere in the method or at module scope, so Python raises `NameError`
at that line (the name `titration_state_index` is resolved first); the method
can never return a charge. -/
def getTitrationStateTotalCharge (self : MCTitration) (titration_group_index : ℕ) :
    Except String ℚ :=
  if titration_group_index < getNumTitratableGroups self then
    Except.error "NameError: name titration_state_index is not defined"
  else
    Except.error "Invalid titratable group requested."

/-- `resetStatistics`: zero the counters and clear the work history. -/
def resetStatistics (self : MCTitration) : MCTitration :=
  { self with nattempted := 0, naccepted := 0, work_history := [] }

/-- `getAcceptanceProbability`: `float(self.naccepted) / float(self.nattempted)`;
Python float division raises `ZeroDivisionError` when the denominator is zero,
which the rational embedding must make explicit. -/
def getAcceptanceProbability (self : MCTitration) : Except String ℚ :=
  if self.nattempted = 0 then
    Except.error "ZeroDivisionError"
  else
    Except.ok ((self.naccepted : ℚ) / (self.nattempted : ℚ))

/-- The dict comprehension
`{ force.__class__.__name__ : force for force in system forces }` followed by a
keyed lookup: later entries overwrite earlier ones, so the lookup yields the
LAST force whose class name matches, and `KeyError` (here `none`) if none does. -/
def findLastForce (forces : List Force) (name : String) : Option ℕ :=
  (List.range forces.length).foldl
    (fun acc i => if (forces.getD i default).classname = name then some i else acc) none

/-- Loop body of `get14exceptions` over `range(force.getNumExceptions())`:
collect the indices of 1,4 exceptions touching `particle_indices`, applying the
"UGLY HACK" zero floor (`sys.float_info.epsilon` for a chargeProd or epsilon
that is a fixed point under doubling, i.e. zero) to each collected exception.
The membership tests short-circuit exactly as the Python `or` does, so
`self.atomExceptions[particle2]` is only read when `particle2` is not already
found in `self.atomExceptions[particle1]`. -/
def get14exceptionsLoop (atomExceptions : List (List ℕ)) (particle_indices : List ℕ) :
    List ℕ → List ℕ → List (ℕ × ℕ × ℚ × ℚ × ℚ) →
    Except String (List ℕ) × List (ℕ × ℕ × ℚ × ℚ × ℚ)
  | [], acc, excs => (Except.ok acc, excs)
  | ei :: rest, acc, excs =>
    match excs.get? ei with
    | none => (Except.error "IndexError", excs)
    | some (p1, p2, chargeProd, sigma, epsilon) =>
      if p1 ∈ particle_indices ∨ p2 ∈ particle_indices then
        match atomExceptions.get? p1 with
        | none => (Except.error "IndexError", excs)
        | some l1 =>
          if p2 ∈ l1 then
            let cp := if 2 * chargeProd = chargeProd then float_eps else chargeProd
            let ep := if 2 * epsilon = epsilon then float_eps else epsilon
            get14exceptionsLoop atomExceptions particle_indices rest (acc ++ [ei])
              (excs.set ei (p1, p2, cp, sigma, ep))
          else
            match atomExceptions.get? p2 with
            | none => (Except.error "IndexError", excs)
            | some l2 =>
              if p1 ∈ l2 then
                let cp := if 2 * chargeProd = chargeProd then float_eps else chargeProd
                let ep := if 2 * epsilon = epsilon then float_eps else epsilon
                get14exceptionsLoop atomExceptions particle_indices rest (acc ++ [ei])
                  (excs.set ei (p1, p2, cp, sigma, ep))
              else
                get14exceptionsLoop atomExceptions particle_indices rest acc excs
      else
        get14exceptionsLoop atomExceptions particle_indices rest acc excs

/-- `get14exceptions(system, particle_indices)`: locate the `NonbondedForce`
of the system (dict lookup, `KeyError` if absent) and run the exception scan,
which also mutates that force through the zero-floor hack. -/
def get14exceptions (atomExceptions : List (List ℕ)) (particle_indices : List ℕ)
    (forces : List Force) : Except String (List ℕ) × List Force :=
  match findLastForce forces "NonbondedForce" with
  | none => (Except.error "KeyError", forces)
  | some fi =>
    let force := forces.getD fi default
    match get14exceptionsLoop atomExceptions particle_indices
        (List.range force.exceptions.length) [] force.exceptions with
    | (Except.error e, excs) =>
      (Except.error e, forces.set fi { force with exceptions := excs })
    | (Except.ok found, excs) =>
      (Except.ok found, forces.set fi { force with exceptions := excs })

/-- `addTitratableGroup(atom_indices)`: first the overlap scan over the
existing groups (raising before any mutation when a shared atom is found),
then the group record is built -- including the `get14exceptions` call, whose
force mutations survive even if it raises -- with
`group_index = len(self.titrationGroups) + 1` stored and returned, the group
appended, and `None` appended to `self.titrationStates`.  (The source reads the
module-global name `system`; in the executable configuration of the file that
global is the very `System` whose forces `self` stores, which is how the call
is modelled here.) -/
def addTitratableGroup (self : MCTitration) (atom_indices : List ℕ) :
    Except String ℕ × MCTitration :=
  if self.titrationGroups.any
      (fun grp => grp.atom_indices.any (fun a => a ∈ atom_indices)) then
    (Except.error "Titration groups cannot share atoms.", self)
  else
    let group_index := self.titrationGroups.length + 1
    match get14exceptions self.atomExceptions atom_indices self.forces with
    | (Except.error e, forces1) => (Except.error e, { self with forces := forces1 })
    | (Except.ok exception_indices, forces1) =>
      let group : TitrationGroup :=
        { atom_indices := atom_indices
          titration_states := []
          index := group_index
          nstates := 0
          exception_indices := exception_indices }
      (Except.ok group_index,
        { self with
            forces := forces1
            titrationGroups := self.titrationGroups ++ [group]
            titrationStates := self.titrationStates ++ [none] })

/-- `addTitrationState(titration_group_index, pKref, relative_energy, charges,
proton_count)`: validates the group index, then the charge count, then appends
the state record, sets `self.titrationStates[i]` to the PRE-increment
`group['nstates']` (the index of the state just appended), and increments
`group['nstates']`.  A `titrationStates` list shorter than the group list would
make the element assignment an `IndexError` after the state was already
appended, which the error branch reproduces. -/
def addTitrationState (self : MCTitration) (titration_group_index : ℕ)
    (pKref relative_energy : ℚ) (charges : List ℚ) (proton_count : ℤ) :
    Except String Unit × MCTitration :=
  -- the locals `group`, `state` and the updated group record of the source
  -- are written out in place here
  if titration_group_index < getNumTitratableGroups self then
    if charges.length =
        (self.titrationGroups.getD titration_group_index default).atom_indices.length then
      if titration_group_index < self.titrationStates.length then
        (Except.ok (),
          { self with
              titrationGroups := self.titrationGroups.set titration_group_index
                { self.titrationGroups.getD titration_group_index default with
                    titration_states :=
                      (self.titrationGroups.getD titration_group_index default).titration_states ++
                        [{ pKref := pKref, relative_energy := relative_energy
                           charges := charges, proton_count := proton_count }]
                    nstates :=
                      (self.titrationGroups.getD titration_group_index default).nstates + 1 }
              titrationStates := self.titrationStates.set titration_group_index
                (some (self.titrationGroups.getD titration_group_index default).nstates) })
      else
        (Except.error "IndexError",
          { self with
              titrationGroups := self.titrationGroups.set titration_group_index
                { self.titrationGroups.getD titration_group_index default with
                    titration_states :=
                      (self.titrationGroups.getD titration_group_index default).titration_states ++
                        [{ pKref := pKref, relative_energy := relative_energy
                           charges := charges, proton_count := proton_count }] } })
    else
      (Except.error
        "The number of charges must match the number (and order) of atoms in the defined titration group.",
        self)
  else
    (Except.error "Invalid titratable group requested.", self)

/-- Inner atom loop of `setTitrationState` for one force:
`for (charge_index, atom_index) in enumerate(atom_indices)` walks the group
atoms and the state charges in step; the `NonbondedForce` and `GBSAOBCForce`
branches both read the particle parameters (a bad particle index is an error
from OpenMM) and then overwrite the first component with
`charges[charge_index]` (an exhausted charge list is an `IndexError`); any
other class name raises `"Don't know how to update force type ..."` at the
first atom reached. -/
def applyChargesToForce (classname : String) :
    List ℚ → List ℕ → List (ℚ × ℚ × ℚ) →
    Except String Unit × List (ℚ × ℚ × ℚ)
  | _, [], particles => (Except.ok (), particles)
  | charges, atom_index :: rest, particles =>
    if classname = "NonbondedForce" then
      match particles.get? atom_index with
      | none => (Except.error "IndexError", particles)
      | some (_, sigma, epsilon) =>
        match charges with
        | [] => (Except.error "IndexError", particles)
        | c :: charges1 =>
          applyChargesToForce classname charges1 rest
            (particles.set atom_index (c, sigma, epsilon))
    else if classname = "GBSAOBCForce" then
      match particles.get? atom_index with
      | none => (Except.error "IndexError", particles)
      | some (_, radius, scaleFactor) =>
        match charges with
        | [] => (Except.error "IndexError", particles)
        | c :: charges1 =>
          applyChargesToForce classname charges1 rest
            (particles.set atom_index (c, radius, scaleFactor))
    else
      (Except.error ("Don't know how to update force type " ++ classname), particles)

/-- Exception loop of `setTitrationState` (only run for a `NonbondedForce`):
for every stored exception index of the group, recompute
`chargeProd = coulomb14scale * charge1 * charge2` from the CURRENT particle
charges, apply the zero floor of the "UGLY HACK" to `chargeProd` and `epsilon`,
and write the exception back. -/
def updateExceptionsLoop (coulomb14scale : ℚ) (particles : List (ℚ × ℚ × ℚ)) :
    List ℕ → List (ℕ × ℕ × ℚ × ℚ × ℚ) →
    Except String Unit × List (ℕ × ℕ × ℚ × ℚ × ℚ)
  | [], excs => (Except.ok (), excs)
  | ei :: rest, excs =>
    match excs.get? ei with
    | none => (Except.error "IndexError", excs)
    | some (p1, p2, _, sigma, epsilon) =>
      match particles.get? p1 with
      | none => (Except.error "IndexError", excs)
      | some (c1, _, _) =>
        match particles.get? p2 with
        | none => (Except.error "IndexError", excs)
        | some (c2, _, _) =>
          let chargeProd := coulomb14scale * c1 * c2
          let cp := if 2 * chargeProd = chargeProd then float_eps else chargeProd
          let ep := if 2 * epsilon = epsilon then float_eps else epsilon
          updateExceptionsLoop coulomb14scale particles rest
            (excs.set ei (p1, p2, cp, sigma, ep))

/-- Outer force loop of `setTitrationState`
(`for force in self.forces_to_update`): apply the per-atom charges of the new
state, then, for a `NonbondedForce`, rewrite the 1,4 exceptions of the group;
`updateParametersInContext` needs no model because the energy oracle is a
function of the force parameters.  A raise leaves the mutations already made in
place. -/
def updateForcesLoop (coulomb14scale : ℚ) (charges : List ℚ)
    (atom_indices exception_indices : List ℕ) :
    List ℕ → List Force → Except String Unit × List Force
  | [], forces => (Except.ok (), forces)
  | fi :: rest, forces =>
    match forces.get? fi with
    | none => (Except.error "IndexError", forces)
    | some force =>
      match applyChargesToForce force.classname charges atom_indices force.particles with
      | (Except.error e, particles1) =>
        (Except.error e, forces.set fi { force with particles := particles1 })
      | (Except.ok _, particles1) =>
        if force.classname = "NonbondedForce" then
          match updateExceptionsLoop coulomb14scale particles1 exception_indices
              force.exceptions with
          | (Except.error e, excs1) =>
            (Except.error e,
              forces.set fi { force with particles := particles1, exceptions := excs1 })
          | (Except.ok _, excs1) =>
            updateForcesLoop coulomb14scale charges atom_indices exception_indices rest
              (forces.set fi { force with particles := particles1, exceptions := excs1 })
        else
          updateForcesLoop coulomb14scale charges atom_indices exception_indices rest
            (forces.set fi { force with particles := particles1 })

/-- `setTitrationState(titration_group_index, titration_state_index, context)`:
validate the group index, then the state index (via `getNumTitrationStates`),
push the charges of the state through every force in `self.forces_to_update`
(mutations up to a raise survive), and ONLY THEN record
`self.titrationStates[titration_group_index] = titration_state_index`; a raise
inside the force loop therefore leaves the recorded titration state unchanged. -/
def setTitrationState (self : MCTitration)
    (titration_group_index titration_state_index : ℕ) :
    Except String Unit × MCTitration :=
  -- the locals `titration_group` and `titration_state` of the source are
  -- written out in place here
  if titration_group_index < getNumTitratableGroups self then
    if titration_state_index <
        (self.titrationGroups.getD titration_group_index default).titration_states.length then
      match updateForcesLoop self.coulomb14scale
          ((self.titrationGroups.getD titration_group_index default).titration_states.getD
            titration_state_index default).charges
          (self.titrationGroups.getD titration_group_index default).atom_indices
          (self.titrationGroups.getD titration_group_index default).exception_indices
          self.forces_to_update self.forces with
      | (Except.error e, forces1) => (Except.error e, { self with forces := forces1 })
      | (Except.ok _, forces1) =>
        if titration_group_index < self.titrationStates.length then
          (Except.ok (),
            { self with
                forces := forces1
                titrationStates := self.titrationStates.set titration_group_index
                  (some titration_state_index) })
        else
          (Except.error "IndexError", { self with forces := forces1 })
    else
      (Except.error "Invalid titration state requested.", self)
  else
    (Except.error "Invalid titratable group requested.", self)

/-- The per-group correction loop of `_compute_log_probability`
(`for (titration_group, titration_state_index) in zip(...)`) accumulated over
an explicit list: a `None` current state makes the list indexing a `TypeError`,
an out-of-range index an `IndexError` (both modelled as `none`); otherwise
`log_P += -proton_count * (pH - pKref) * ln(10) + beta * relative_energy`. -/
def logPCorrections (ln10 beta pH : ℚ) :
    List (TitrationGroup × Option ℕ) → ℚ → Option ℚ
  | [], acc => some acc
  | (titration_group, titration_state_index) :: rest, acc =>
    match titration_state_index with
    | none => none
    | some tsi =>
      match titration_group.titration_states.get? tsi with
      | none => none
      | some titration_state =>
        logPCorrections ln10 beta pH rest
          (acc + (-(titration_state.proton_count : ℚ) * (pH - titration_state.pKref) * ln10
            + beta * titration_state.relative_energy))

/-- `_compute_log_probability(context)`: `beta = 1 / (kB * temperature)`,
`log_P = -beta * (potential + kinetic)` from the energy oracle, then the
per-group reference-state corrections.  (The embedding of the float division
defining `beta` is exact only for `kB * temperature ≠ 0`; the loop also prints
to stdout, which has no state effect.) -/
def computeLogProbability (kB ln10 : ℚ) (ctx : List Force → ℚ × ℚ)
    (self : MCTitration) : Option ℚ :=
  let kT := kB * self.temperature
  let beta := 1 / kT
  let e := ctx self.forces
  let total_energy := e.1 + e.2
  logPCorrections ln10 beta self.pH
    (self.titrationGroups.zip self.titrationStates) (-beta * total_energy)

/-- `_compute_log_probability` in state-threading form: the method body reads
`self` and the context but assigns no attribute, so its faithful stateful
translation returns `self` unchanged alongside the value. -/
def computeLogProbabilityRun (kB ln10 : ℚ) (ctx : List Force → ℚ × ℚ)
    (self : MCTitration) : Option ℚ × MCTitration :=
  (computeLogProbability kB ln10 ctx self, self)

/-- The `random` draws consumed by one trial of `update`: `group_indices` is
the output of `random.sample(range(ngroups), ndraw)` (so in a faithful run its
elements are distinct, in range, and number 1 or 2), `propose g` is the output
of `random.choice(range(nstates(g)))` for sampled group `g`, and `accept_r` is
the `random.random()` variate of the Metropolis test. -/
structure AttemptDraws where
  group_indices : List ℕ
  propose : ℕ → ℕ
  accept_r : ℚ

/-- Proposal loop of one `update` trial: for each sampled group, query its
state count (`getNumTitrationStates` validates the group), note that
`random.choice` on an empty range raises `IndexError`, and apply the drawn
state via `setTitrationState`. -/
def proposeStates (d : AttemptDraws) :
    List ℕ → MCTitration → Except String Unit × MCTitration
  | [], self => (Except.ok (), self)
  | g :: rest, self =>
    match getNumTitrationStates self g with
    | Except.error e => (Except.error e, self)
    | Except.ok nstates =>
      if nstates = 0 then
        (Except.error "IndexError", self)
      else
        match setTitrationState self g (d.propose g) with
        | (Except.error e, self1) => (Except.error e, self1)
        | (Except.ok _, self1) => proposeStates d rest self1

/-- Rejection loop of one `update` trial: restore
`initial_titration_states[g]` for every sampled group.  Reading past the end
of the snapshot is an `IndexError`; a snapshot entry of `None` fails
`setTitrationState`s state-validity check exactly as the `None` argument does
in the source. -/
def restoreStates (initial : List (Option ℕ)) :
    List ℕ → MCTitration → Except String Unit × MCTitration
  | [], self => (Except.ok (), self)
  | g :: rest, self =>
    match initial.get? g with
    | none => (Except.error "IndexError", self)
    | some none => (Except.error "Invalid titration state requested.", self)
    | some (some s0) =>
      match setTitrationState self g s0 with
      | (Except.error e, self1) => (Except.error e, self1)
      | (Except.ok _, self1) => restoreStates initial rest self1

/-- One trial of `update(context)` (the body of the
`for attempt in range(self.nattempts_per_update)` loop): compute the initial
log probability, snapshot the titration states, apply the proposal to every
sampled group, compute the final log probability,
`work = -(log_P_final - log_P_initial)`, append to the work history, increment
`nattempted`, and Metropolis-accept
(`log_P_accept > 0 or random.random() < exp(log_P_accept)`), incrementing
`naccepted` on acceptance and restoring the snapshot on rejection. -/
def updateAttempt (kB ln10 : ℚ) (mexp : ℚ → ℚ) (ctx : List Force → ℚ × ℚ)
    (d : AttemptDraws) (self : MCTitration) : Except String Unit × MCTitration :=
  -- the locals of the source are written out in place here:
  -- `initial_titration_states` is `self.titrationStates`,
  -- `final_titration_states` is `self1.titrationStates`,
  -- `work = -(log_P_final - log_P_initial)`, `log_P_accept = -work`, and the
  -- work-history append and `nattempted` increment are merged into one record
  -- update on `self1`
  match computeLogProbability kB ln10 ctx self with
  | none => (Except.error "TypeError", self)
  | some log_P_initial =>
    match proposeStates d d.group_indices self with
    | (Except.error e, self1) => (Except.error e, self1)
    | (Except.ok _, self1) =>
      match computeLogProbability kB ln10 ctx self1 with
      | none => (Except.error "TypeError", self1)
      | some log_P_final =>
        if -(-(log_P_final - log_P_initial)) > 0 ∨
            d.accept_r < mexp (-(-(log_P_final - log_P_initial))) then
          (Except.ok (),
            { self1 with
                work_history := self1.work_history ++
                  [(self.titrationStates, self1.titrationStates,
                    -(log_P_final - log_P_initial))]
                nattempted := self1.nattempted + 1
                naccepted := self1.naccepted + 1 })
        else
          restoreStates self.titrationStates d.group_indices
            { self1 with
                work_history := self1.work_history ++
                  [(self.titrationStates, self1.titrationStates,
                    -(log_P_final - log_P_initial))]
                nattempted := self1.nattempted + 1 }

/-- The trial loop of `update` over an explicit list of iteration indices;
a raise inside a trial aborts the remaining trials, keeping the state at the
moment of the raise. -/
def updateLoop (kB ln10 : ℚ) (mexp : ℚ → ℚ) (ctx : List Force → ℚ × ℚ)
    (draws : ℕ → AttemptDraws) :
    List ℕ → MCTitration → Except String Unit × MCTitration
  | [], self => (Except.ok (), self)
  | i :: rest, self =>
    match updateAttempt kB ln10 mexp ctx (draws i) self with
    | (Except.error e, self1) => (Except.error e, self1)
    | (Except.ok _, self1) => updateLoop kB ln10 mexp ctx draws rest self1

/-- `update(context)`: run `self.nattempts_per_update` trials, the draws of
trial `i` supplied by `draws i`. -/
def update (kB ln10 : ℚ) (mexp : ℚ → ℚ) (ctx : List Force → ℚ × ℚ)
    (draws : ℕ → AttemptDraws) (self : MCTitration) :
    Except String Unit × MCTitration :=
  updateLoop kB ln10 mexp ctx draws (List.range self.nattempts_per_update) self

/-- `setNumAttemptsPerUpdate(nattempts)`: store the argument, defaulting to the
number of titratable groups when it is `None`. -/
def setNumAttemptsPerUpdate (self : MCTitration) (nattempts : Option ℕ) : MCTitration :=
  match nattempts with
  | some n => { self with nattempts_per_update := n }
  | none => { self with nattempts_per_update := getNumTitratableGroups self }

/-- The log-probability formula as the specification states it:
`-beta * total_energy` plus, for every group in its current active state,
`-proton_count * (pH - reference_pKa) * ln(10) + beta * relative_energy`,
with `beta = 1/(kB * temperature)`.  (Lookups are total here; the theorem
relating this to `computeLogProbability` assumes every active state is valid,
so the `getD` defaults are never exercised.) -/
def specLogProbability (kB ln10 : ℚ) (ctx : List Force → ℚ × ℚ)
    (self : MCTitration) : ℚ :=
  let beta := 1 / (kB * self.temperature)
  let e := ctx self.forces
  (-beta * (e.1 + e.2)) +
    ((self.titrationGroups.zip self.titrationStates).map (fun p =>
      let st := p.1.titration_states.getD (p.2.getD 0) default
      (-(st.proton_count : ℚ) * (self.pH - st.pKref) * ln10
        + beta * st.relative_energy))).sum

deriving instance DecidableEq for Except

/-- A concrete `NonbondedForce` with one particle of zero charge. -/
def exForce : Force :=
  { classname := "NonbondedForce", particles := [(0, 1, 1)], exceptions := [] }

/-- Concrete deprotonated titration state: zero charge, zero protons. -/
def exState0 : TitrationState :=
  { pKref := 0, relative_energy := 0, charges := [0], proton_count := 0 }

/-- Concrete protonated titration state: unit charge, one proton. -/
def exState1 : TitrationState :=
  { pKref := 0, relative_energy := 0, charges := [1], proton_count := 1 }

/-- Concrete one-atom titratable group with the two states above. -/
def exGroup : TitrationGroup :=
  { atom_indices := [0], titration_states := [exState0, exState1], index := 1, nstates := 2,
    exception_indices := [] }

/-- Concrete single-group driver state, currently in state 0. -/
def exMCT : MCTitration :=
  { temperature := 1, pH := 0, coulomb14scale := 5/6, atomExceptions := [[]],
    forces := [exForce], forces_to_update := [0],
    titrationGroups := [exGroup], titrationStates := [some 0],
    nattempted := 0, naccepted := 0, work_history := [],
    nattempts_per_update := 1, simultaneous_proposal_probability := 1/10 }

/-- A concrete energy oracle: potential proportional to the pushed charge of
particle 0, so the protonated state is dramatically higher in energy. -/
def exCtx : List Force → ℚ × ℚ :=
  fun fs => (1000 * (((fs.getD 0 default).particles.getD 0 (0, 0, 0)).1), 0)

/-- A concrete stand-in for `math.exp` that makes the fallback Metropolis
branch lose for the draw used in the examples. -/
def exExp : ℚ → ℚ := fun _ => 0

/-- Concrete draws: always sample group 0, propose state 1, acceptance
variate 1. -/
def exDraws : ℕ → AttemptDraws :=
  fun _ => { group_indices := [0], propose := fun _ => 1, accept_r := 1 }

/-- The state `exMCT` reaches after one rejected trial: titration states and
forces restored, one attempt recorded, the trial in the work history. -/
def exMCTafter : MCTitration :=
  { exMCT with nattempted := 1, work_history := [([some 0], [some 1], 1000)] }

/-- A concrete force of a class `setTitrationState` does not know how to
update. -/
def badForce : Force :=
  { classname := "HarmonicBondForce", particles := [(0, 0, 0)], exceptions := [] }

/-- `exMCT` with the unsupported force installed. -/
def exMCTbad : MCTitration := { exMCT with forces := [badForce] }

/-- A concrete driver state with no titratable groups yet. -/
def emptyMCT : MCTitration :=
  { temperature := 1, pH := 7, coulomb14scale := 5/6, atomExceptions := [[]],
    forces := [exForce], forces_to_update := [0],
    titrationGroups := [], titrationStates := [],
    nattempted := 0, naccepted := 0, work_history := [],
    nattempts_per_update := 0, simultaneous_proposal_probability := 1/10 }

theorem get?_set_self {α : Type} (l : List α) (i : ℕ) (a : α) (h : i < l.length) :
    (l.set i a).get? i = some a := by
  rw [List.get?_eq_getElem?]
  exact List.getElem?_set_self h

theorem get?_set_of_ne {α : Type} (l : List α) {i j : ℕ} (a : α) (h : i ≠ j) :
    (l.set i a).get? j = l.get? j :=
  List.get?_set_ne a l h

theorem get?_eq_some_getD {α : Type} (l : List α) (i : ℕ) (d : α) (h : i < l.length) :
    l.get? i = some (l.getD i d) := by
  rw [List.getD_eq_get?]
  cases hh : l.get? i with
  | none => exact absurd h (by simpa using Nat.not_lt.mpr (List.get?_eq_none.mp hh))
  | some a => rfl

theorem getD_set_self {α : Type} (l : List α) (i : ℕ) (a d : α) (h : i < l.length) :
    (l.set i a).getD i d = a := by
  rw [List.getD_eq_get?, get?_set_self l i a h]
  rfl

/-- On success, `setTitrationState` records exactly `some s` at position `g` of
the titration-state vector and changes no other bookkeeping field. -/
theorem setTitrationState_ok (self self1 : MCTitration) (g s : ℕ)
    (h : setTitrationState self g s = (Except.ok (), self1)) :
    self1.titrationStates = self.titrationStates.set g (some s) ∧
    g < self.titrationStates.length ∧
    self1.titrationGroups = self.titrationGroups ∧
    self1.naccepted = self.naccepted ∧
    self1.nattempted = self.nattempted ∧
    self1.work_history = self.work_history ∧
    self1.nattempts_per_update = self.nattempts_per_update := by
  unfold setTitrationState at h
  repeat' split at h
  all_goals
    rw [Prod.mk.injEq] at h
    obtain ⟨h1, h2⟩ := h
  all_goals first
    | exact Except.noConfusion h1
    | (subst h2
       exact ⟨rfl, ‹_›, rfl, rfl, rfl, rfl, rfl⟩)

/-- On a raise, `setTitrationState` leaves the titration-state vector and every
bookkeeping field (only force parameters may have moved) unchanged. -/
theorem setTitrationState_error (self self1 : MCTitration) (g s : ℕ) (e : String)
    (h : setTitrationState self g s = (Except.error e, self1)) :
    self1.titrationStates = self.titrationStates ∧
    self1.titrationGroups = self.titrationGroups ∧
    self1.naccepted = self.naccepted ∧
    self1.nattempted = self.nattempted ∧
    self1.work_history = self.work_history ∧
    self1.nattempts_per_update = self.nattempts_per_update := by
  unfold setTitrationState at h
  repeat' split at h
  all_goals
    rw [Prod.mk.injEq] at h
    obtain ⟨h1, h2⟩ := h
  all_goals first
    | exact Except.noConfusion h1
    | (subst h2
       exact ⟨rfl, rfl, rfl, rfl, rfl, rfl⟩)

/-- The proposal loop changes no bookkeeping field other than the
titration-state vector, whose length it preserves (any outcome). -/
theorem proposeStates_frame (d : AttemptDraws) (gs : List ℕ) (self : MCTitration) :
    (proposeStates d gs self).2.titrationGroups = self.titrationGroups ∧
    (proposeStates d gs self).2.naccepted = self.naccepted ∧
    (proposeStates d gs self).2.nattempted = self.nattempted ∧
    (proposeStates d gs self).2.work_history = self.work_history ∧
    (proposeStates d gs self).2.nattempts_per_update = self.nattempts_per_update ∧
    (proposeStates d gs self).2.titrationStates.length = self.titrationStates.length := by
  induction gs generalizing self with
  | nil => exact ⟨rfl, rfl, rfl, rfl, rfl, rfl⟩
  | cons g rest ih =>
    unfold proposeStates
    split
    · exact ⟨rfl, rfl, rfl, rfl, rfl, rfl⟩
    · split
      · exact ⟨rfl, rfl, rfl, rfl, rfl, rfl⟩
      · split
        next e self2 heq =>
          obtain ⟨h1, h2, h3, h4, h5, h6⟩ :=
            setTitrationState_error self self2 g (d.propose g) e heq
          exact ⟨h2, h3, h4, h5, h6, by rw [h1]⟩
        next a self2 heq =>
          obtain ⟨h1, hg, h2, h3, h4, h5, h6⟩ :=
            setTitrationState_ok self self2 g (d.propose g) heq
          obtain ⟨i1, i2, i3, i4, i5, i6⟩ := ih self2
          exact ⟨by rw [i1, h2], by rw [i2, h3], by rw [i3, h4], by rw [i4, h5],
            by rw [i5, h6], by rw [i6, h1, List.length_set]⟩

/-- The proposal loop writes the titration-state vector only at the sampled
group indices. -/
theorem proposeStates_get?_of_not_mem (d : AttemptDraws) (gs : List ℕ)
    (self : MCTitration) (i : ℕ) (hi : i ∉ gs) :
    (proposeStates d gs self).2.titrationStates.get? i =
      self.titrationStates.get? i := by
  induction gs generalizing self with
  | nil => rfl
  | cons g rest ih =>
    have hig : i ≠ g := fun he => hi (he ▸ List.mem_cons_self g rest)
    have hirest : i ∉ rest := fun he => hi (List.mem_cons_of_mem g he)
    unfold proposeStates
    split
    · rfl
    · split
      · rfl
      · split
        next e self2 heq =>
          exact congrArg (fun l => l.get? i)
            (setTitrationState_error self self2 g (d.propose g) e heq).1
        next a self2 heq =>
          rw [ih self2 hirest, (setTitrationState_ok self self2 g (d.propose g) heq).1,
            get?_set_of_ne _ _ (Ne.symm hig)]

/-- The restoration loop changes no bookkeeping field other than the
titration-state vector (any outcome). -/
theorem restoreStates_frame (initial : List (Option ℕ)) (gs : List ℕ)
    (self : MCTitration) :
    (restoreStates initial gs self).2.titrationGroups = self.titrationGroups ∧
    (restoreStates initial gs self).2.naccepted = self.naccepted ∧
    (restoreStates initial gs self).2.nattempted = self.nattempted ∧
    (restoreStates initial gs self).2.work_history = self.work_history ∧
    (restoreStates initial gs self).2.nattempts_per_update = self.nattempts_per_update := by
  induction gs generalizing self with
  | nil => exact ⟨rfl, rfl, rfl, rfl, rfl⟩
  | cons g rest ih =>
    unfold restoreStates
    split
    · exact ⟨rfl, rfl, rfl, rfl, rfl⟩
    · exact ⟨rfl, rfl, rfl, rfl, rfl⟩
    · split
      next e self2 heq =>
        obtain ⟨-, h2, h3, h4, h5, h6⟩ := setTitrationState_error self self2 g _ e heq
        exact ⟨h2, h3, h4, h5, h6⟩
      next a self2 heq =>
        obtain ⟨-, -, h2, h3, h4, h5, h6⟩ := setTitrationState_ok self self2 g _ heq
        obtain ⟨i1, i2, i3, i4, i5⟩ := ih self2
        exact ⟨by rw [i1, h2], by rw [i2, h3], by rw [i3, h4], by rw [i4, h5], by rw [i5, h6]⟩

/-- After a SUCCESSFUL restoration, every restored index holds its snapshot
value and every other index is untouched. -/
theorem restoreStates_ok_get? (initial : List (Option ℕ)) (gs : List ℕ)
    (self self1 : MCTitration) (u : Unit)
    (h : restoreStates initial gs self = (Except.ok u, self1)) (i : ℕ) :
    self1.titrationStates.get? i =
      if i ∈ gs then initial.get? i else self.titrationStates.get? i := by
  induction gs generalizing self with
  | nil =>
    rw [restoreStates, Prod.mk.injEq] at h
    obtain ⟨-, h2⟩ := h
    subst h2
    simp
  | cons g rest ih =>
    unfold restoreStates at h
    split at h
    · exact absurd h (by simp)
    · exact absurd h (by simp)
    next s0 hg0 =>
      split at h
      next e self2 heq => exact absurd h (by simp)
      next a self2 heq =>
        obtain ⟨hts, hlen, -, -, -, -, -⟩ := setTitrationState_ok self self2 g s0 heq
        rw [ih self2 h]
        by_cases hr : i ∈ rest
        · simp [hr]
        · by_cases hgi : i = g
          · subst hgi
            rw [if_neg hr, if_pos (List.mem_cons_self i rest), hts,
              get?_set_self _ _ _ hlen, hg0]
          · have : i ∉ g :: rest := by
              intro hmem
              rcases List.mem_cons.mp hmem with h1 | h1
              · exact hgi h1
              · exact hr h1
            simp only [hr, if_neg, this]
            rw [hts, get?_set_of_ne _ _ (Ne.symm hgi)]

/-- One trial preserves `naccepted ≤ nattempted`: the trial increments
`nattempted` by one and `naccepted` by at most one. -/
theorem updateAttempt_counters (kB ln10 : ℚ) (mexp : ℚ → ℚ)
    (ctx : List Force → ℚ × ℚ) (d : AttemptDraws) (self : MCTitration)
    (h : self.naccepted ≤ self.nattempted) :
    (updateAttempt kB ln10 mexp ctx d self).2.naccepted ≤
      (updateAttempt kB ln10 mexp ctx d self).2.nattempted := by
  unfold updateAttempt
  split
  next hnone => exact h
  next lpi hlpi =>
    split
    next e self2 hprop =>
      obtain ⟨-, i2, i3, -, -, -⟩ := proposeStates_frame d d.group_indices self
      rw [hprop] at i2 i3
      have h2 : self2.naccepted ≤ self2.nattempted := by rw [i2, i3]; exact h
      exact h2
    next a self2 hprop =>
      obtain ⟨-, i2, i3, -, -, -⟩ := proposeStates_frame d d.group_indices self
      rw [hprop] at i2 i3
      have h2 : self2.naccepted ≤ self2.nattempted := by rw [i2, i3]; exact h
      split
      next => exact h2
      next lpf hlpf =>
        split
        next hcond => exact Nat.succ_le_succ h2
        next hcond =>
          obtain ⟨-, r2, r3, -, -⟩ := restoreStates_frame self.titrationStates d.group_indices
            { self2 with
                work_history := self2.work_history ++
                  [(self.titrationStates, self2.titrationStates, -(lpf - lpi))]
                nattempted := self2.nattempted + 1 }
          rw [r2, r3]
          exact Nat.le_succ_of_le h2

/-- The trial loop preserves `naccepted ≤ nattempted`. -/
theorem updateLoop_counters (kB ln10 : ℚ) (mexp : ℚ → ℚ)
    (ctx : List Force → ℚ × ℚ) (draws : ℕ → AttemptDraws) (idxs : List ℕ)
    (self : MCTitration) (h : self.naccepted ≤ self.nattempted) :
    (updateLoop kB ln10 mexp ctx draws idxs self).2.naccepted ≤
      (updateLoop kB ln10 mexp ctx draws idxs self).2.nattempted := by
  induction idxs generalizing self with
  | nil => exact h
  | cons i rest ih =>
    unfold updateLoop
    split
    next e self2 hA =>
      have hc := updateAttempt_counters kB ln10 mexp ctx (draws i) self h
      rw [hA] at hc
      exact hc
    next a self2 hA =>
      apply ih
      have hc := updateAttempt_counters kB ln10 mexp ctx (draws i) self h
      rw [hA] at hc
      exact hc

/-- C1: For every `update()` trial that is rejected by the Metropolis test,
every sampled group's active state is restored to its pre-trial value -- so
after `update()` with `attempts_per_update = 1` and a rejected proposal, the
active-state vector equals the pre-trial vector -- `naccepted` is unchanged,
and `nattempted` increments by exactly 1.  The rejection hypothesis states
that the Metropolis condition `log_P_accept > 0 or r < exp(log_P_accept)`
fails for the log-probabilities the trial computes. -/
theorem update_rejected_trial_restores (kB ln10 : ℚ) (mexp : ℚ → ℚ)
    (ctx : List Force → ℚ × ℚ) (draws : ℕ → AttemptDraws)
    (self self1 : MCTitration)
    (hatt : self.nattempts_per_update = 1)
    (hupd : update kB ln10 mexp ctx draws self = (Except.ok (), self1))
    (hrej : ∀ lpi lpf : ℚ,
      computeLogProbability kB ln10 ctx self = some lpi →
      computeLogProbability kB ln10 ctx
        (proposeStates (draws 0) (draws 0).group_indices self).2 = some lpf →
      ¬(-(-(lpf - lpi)) > 0 ∨ (draws 0).accept_r < mexp (-(-(lpf - lpi))))) :
    self1.titrationStates = self.titrationStates ∧
    self1.naccepted = self.naccepted ∧
    self1.nattempted = self.nattempted + 1 := by
  unfold update at hupd
  rw [hatt, show List.range 1 = [0] from rfl] at hupd
  unfold updateLoop at hupd
  split at hupd
  next e self2 hA => exact absurd hupd (by simp)
  next a self2 hA =>
    rw [updateLoop, Prod.mk.injEq] at hupd
    obtain ⟨-, h2⟩ := hupd
    subst h2
    unfold updateAttempt at hA
    split at hA
    next hnone => exact absurd hA (by simp)
    next lpi hlpi =>
      split at hA
      next e self3 hprop => exact absurd hA (by simp)
      next a3 self3 hprop =>
        split at hA
        next hnone => exact absurd hA (by simp)
        next lpf hlpf =>
          have hlpf2 : computeLogProbability kB ln10 ctx
              (proposeStates (draws 0) (draws 0).group_indices self).2 = some lpf := by
            rw [hprop]
            exact hlpf
          split at hA
          next hcond => exact absurd hcond (hrej lpi lpf hlpi hlpf2)
          next hcond =>
            obtain ⟨-, r2, r3, -, -⟩ := restoreStates_frame self.titrationStates
              (draws 0).group_indices
              { self3 with
                  work_history := self3.work_history ++
                    [(self.titrationStates, self3.titrationStates, -(lpf - lpi))]
                  nattempted := self3.nattempted + 1 }
            rw [hA] at r2 r3
            obtain ⟨-, i2, i3, -, -, -⟩ := proposeStates_frame (draws 0)
              (draws 0).group_indices self
            rw [hprop] at i2 i3
            refine ⟨?_, ?_, ?_⟩
            · apply List.ext_get?
              intro n
              rw [restoreStates_ok_get? self.titrationStates (draws 0).group_indices _ _ a hA n]
              by_cases hn : n ∈ (draws 0).group_indices
              · rw [if_pos hn]
              · rw [if_neg hn]
                have hp := proposeStates_get?_of_not_mem (draws 0)
                  (draws 0).group_indices self n hn
                rw [hprop] at hp
                exact hp
            · rw [r2, i2]
            · rw [r3, i3]

/-- When every zipped pair carries a valid active state, the correction loop
accumulates exactly the sum of the per-group correction terms. -/
theorem logPCorrections_eq_sum (ln10 beta pH : ℚ)
    (l : List (TitrationGroup × Option ℕ)) :
    (∀ p ∈ l, ∃ s, p.2 = some s ∧ s < p.1.titration_states.length) →
    ∀ acc : ℚ, logPCorrections ln10 beta pH l acc =
      some (acc + (l.map (fun p =>
        let st := p.1.titration_states.getD (p.2.getD 0) default
        (-(st.proton_count : ℚ) * (pH - st.pKref) * ln10
          + beta * st.relative_energy))).sum) := by
  induction l with
  | nil =>
    intro _ acc
    simp [logPCorrections]
  | cons p rest ih =>
    intro hv acc
    obtain ⟨s, hs, hlt⟩ := hv p (List.mem_cons_self p rest)
    obtain ⟨g, ts⟩ := p
    have hs2 : ts = some s := hs
    subst hs2
    rw [List.map_cons, List.sum_cons]
    simp only [logPCorrections]
    rw [get?_eq_some_getD g.titration_states s default hlt]
    show logPCorrections ln10 beta pH rest
        (acc + (-(((g.titration_states.getD s default).proton_count : ℚ)) *
            (pH - (g.titration_states.getD s default).pKref) * ln10 +
          beta * (g.titration_states.getD s default).relative_energy)) = _
    rw [ih (fun q hq => hv q (List.mem_cons_of_mem _ hq))]
    simp only [Option.getD_some]
    rw [add_assoc]

/-- C2: for every ensemble whose groups all have a valid active state,
`_compute_log_probability` returns exactly
`-beta * (potential + kinetic)` plus, summed over every group's current
active state, `-proton_count * (pH - reference_pKa) * ln(10)
+ beta * relative_energy`, with `beta = 1/(kB * temperature)` (the
`specLogProbability` formula).  The nonzero-`kT` hypothesis marks where the
float division of the source is defined. -/
theorem compute_log_probability_formula (kB ln10 : ℚ) (ctx : List Force → ℚ × ℚ)
    (self : MCTitration)
    (hkT : kB * self.temperature ≠ 0)
    (hlen : self.titrationStates.length = self.titrationGroups.length)
    (hv : ∀ p ∈ self.titrationGroups.zip self.titrationStates,
      ∃ s, p.2 = some s ∧ s < p.1.titration_states.length) :
    computeLogProbability kB ln10 ctx self =
      some (specLogProbability kB ln10 ctx self) := by
  simp only [computeLogProbability, specLogProbability]
  rw [logPCorrections_eq_sum ln10 (1 / (kB * self.temperature)) self.pH
    (self.titrationGroups.zip self.titrationStates) hv]

/-- C7: `_compute_log_probability` is pure: its state-threaded form returns the
ensemble (groups, state lists, active indices, counters) unchanged, and two
consecutive calls with no state change between them return identical values. -/
theorem compute_log_probability_pure (kB ln10 : ℚ) (ctx : List Force → ℚ × ℚ)
    (self : MCTitration) :
    (computeLogProbabilityRun kB ln10 ctx self).2 = self ∧
    (computeLogProbabilityRun kB ln10 ctx
      (computeLogProbabilityRun kB ln10 ctx self).2).1 =
      (computeLogProbabilityRun kB ln10 ctx self).1 :=
  ⟨rfl, rfl⟩

/-- C8: `getAcceptanceProbability` returns exactly `naccepted / nattempted`
when `nattempted > 0`, and fails with the division-undefined error (Python
`ZeroDivisionError`) rather than returning a number when `nattempted = 0`. -/
theorem acceptance_probability_spec (self : MCTitration) :
    (0 < self.nattempted →
      getAcceptanceProbability self =
        Except.ok ((self.naccepted : ℚ) / (self.nattempted : ℚ))) ∧
    (self.nattempted = 0 →
      getAcceptanceProbability self = Except.error "ZeroDivisionError") := by
  constructor
  · intro h
    rw [getAcceptanceProbability, if_neg (by omega)]
  · intro h
    rw [getAcceptanceProbability, if_pos h]

/-- Witness for C8: one attempted trial gives the exact ratio, a fresh sampler
raises. -/
theorem acceptance_probability_spec_witness :
    getAcceptanceProbability exMCTafter =
      Except.ok ((exMCTafter.naccepted : ℚ) / (exMCTafter.nattempted : ℚ)) ∧
    getAcceptanceProbability exMCT = Except.error "ZeroDivisionError" :=
  ⟨(acceptance_probability_spec exMCTafter).1 (by decide),
   (acceptance_probability_spec exMCT).2 rfl⟩

/-- C10: for every group index, `getTitrationStateTotalCharge` raises (either
the group-validity error or the `NameError` on the undefined local names) and
never returns a charge. -/
theorem total_charge_query_always_raises (self : MCTitration)
    (titration_group_index : ℕ) :
    ∃ e, getTitrationStateTotalCharge self titration_group_index =
      Except.error e := by
  unfold getTitrationStateTotalCharge
  split
  · exact ⟨_, rfl⟩
  · exact ⟨_, rfl⟩

/-- C3: each failed setup call raises the corresponding error and returns the
ensemble exactly as it was (validation precedes every mutation): overlap in
`addTitratableGroup`, out-of-range group in `addTitrationState`, and charge
count mismatch in `addTitrationState`. -/
theorem setup_failure_leaves_ensemble_unchanged (self : MCTitration)
    (atom_indices : List ℕ) (g1 g2 : ℕ) (pk1 re1 pk2 re2 : ℚ)
    (cs1 cs2 : List ℚ) (pc1 pc2 : ℤ) :
    ((∃ grp ∈ self.titrationGroups, ∃ a ∈ grp.atom_indices, a ∈ atom_indices) →
      addTitratableGroup self atom_indices =
        (Except.error "Titration groups cannot share atoms.", self)) ∧
    (getNumTitratableGroups self ≤ g1 →
      addTitrationState self g1 pk1 re1 cs1 pc1 =
        (Except.error "Invalid titratable group requested.", self)) ∧
    (g2 < getNumTitratableGroups self →
      cs2.length ≠ (self.titrationGroups.getD g2 default).atom_indices.length →
      addTitrationState self g2 pk2 re2 cs2 pc2 =
        (Except.error
          "The number of charges must match the number (and order) of atoms in the defined titration group.",
          self)) := by
  refine ⟨?_, ?_, ?_⟩
  · intro hov
    obtain ⟨grp, hgrp, a, ha, hma⟩ := hov
    rw [addTitratableGroup, if_pos ?_]
    rw [List.any_eq_true]
    exact ⟨grp, hgrp, by rw [List.any_eq_true]; exact ⟨a, ha, by simpa using hma⟩⟩
  · intro hge
    rw [addTitrationState, if_neg (by omega)]
  · intro hlt hne
    rw [addTitrationState, if_pos hlt, if_neg hne]

/-- Witness for C3 at concrete failing setup calls on the one-group example. -/
theorem setup_failure_leaves_ensemble_unchanged_witness :
    addTitratableGroup exMCT [0] =
      (Except.error "Titration groups cannot share atoms.", exMCT) ∧
    addTitrationState exMCT 1 0 0 [0] 0 =
      (Except.error "Invalid titratable group requested.", exMCT) ∧
    addTitrationState exMCT 0 0 0 [7, 8] 0 =
      (Except.error
        "The number of charges must match the number (and order) of atoms in the defined titration group.",
        exMCT) := by
  obtain ⟨w1, w2, w3⟩ :=
    setup_failure_leaves_ensemble_unchanged exMCT [0] 1 0 0 0 0 0 [0] [7, 8] 0 0
  exact ⟨w1 ⟨exGroup, by norm_num [exMCT], 0, by norm_num [exGroup], by norm_num⟩,
    w2 (by norm_num [getNumTitratableGroups, exMCT]),
    w3 (by norm_num [getNumTitratableGroups, exMCT]) (by norm_num [exMCT, exGroup])⟩

/-- C4 counterexample: on an ensemble whose only force component is of an
unsupported class, `setTitrationState(0, 1)` is called with valid group and
state ids, the per-force push raises, and the recorded active state is NOT
updated -- a subsequent query still returns state 0, not 1 -- refuting the
claim that the active-state index is updated unconditionally of adapter
success. -/
theorem set_active_state_unconditional_cex :
    0 < getNumTitratableGroups exMCTbad ∧
    1 < (exMCTbad.titrationGroups.getD 0 default).titration_states.length ∧
    (setTitrationState exMCTbad 0 1).1 =
      Except.error "Don't know how to update force type HarmonicBondForce" ∧
    (setTitrationState exMCTbad 0 1).2.titrationStates = [some 0] ∧
    getTitrationState (setTitrationState exMCTbad 0 1).2 0 = Except.ok (some 0) := by
  refine ⟨by norm_num [getNumTitratableGroups, exMCTbad, exMCT], ?_, ?_, ?_, ?_⟩ <;>
    simp [setTitrationState, getNumTitratableGroups, getTitrationState,
      updateForcesLoop, applyChargesToForce, updateExceptionsLoop,
      exMCTbad, exMCT, exGroup, exState0, exState1, badForce]

/-- C4 (amended): for valid group id `g` and state id `s`, a `setTitrationState`
call that completes every per-force push updates the recorded active state to
`s` as its final step, so a subsequent query returns `s`; but when a per-force
push raises (e.g. an unsupported force component), the final step is never
reached and the recorded active state is unchanged. -/
theorem set_active_state_final_step (self : MCTitration) (g s : ℕ) :
    (∀ u self1, setTitrationState self g s = (Except.ok u, self1) →
      self1.titrationStates.get? g = some (some s)) ∧
    (∀ e self1, setTitrationState self g s = (Except.error e, self1) →
      self1.titrationStates = self.titrationStates) := by
  constructor
  · intro u self1 h
    cases u
    obtain ⟨h1, hg, -, -, -, -, -⟩ := setTitrationState_ok self self1 g s h
    rw [h1, get?_set_self _ _ _ hg]
  · intro e self1 h
    exact (setTitrationState_error self self1 g s e h).1

/-- The state `exMCT` reaches after a successful `setTitrationState(0, 1)`. -/
def exMCTset1 : MCTitration :=
  { exMCT with
      forces := [{ classname := "NonbondedForce", particles := [(1, 1, 1)], exceptions := [] }]
      titrationStates := [some 1] }

/-- Witness for C4 (amended): a successful push records the new state, a raised
push leaves the record unchanged. -/
theorem set_active_state_final_step_witness :
    exMCTset1.titrationStates.get? 0 = some (some 1) ∧
    (setTitrationState exMCTbad 0 1).2.titrationStates = exMCTbad.titrationStates := by
  constructor
  · refine (set_active_state_final_step exMCT 0 1).1 () exMCTset1 ?_
    norm_num [setTitrationState, getNumTitratableGroups, updateForcesLoop,
      applyChargesToForce, updateExceptionsLoop, exMCT, exMCTset1, exGroup,
      exForce, exState0, exState1]
  · refine (set_active_state_final_step exMCTbad 0 1).2
      "Don't know how to update force type HarmonicBondForce"
      (setTitrationState exMCTbad 0 1).2 ?_
    have hfull : setTitrationState exMCTbad 0 1 =
        (Except.error "Don't know how to update force type HarmonicBondForce",
          exMCTbad) := by
      simp [setTitrationState, getNumTitratableGroups, updateForcesLoop,
        applyChargesToForce, updateExceptionsLoop, exMCTbad, exMCT, exGroup,
        exState0, exState1, badForce]
    rw [hfull]

/-- C5: every successful `addTitrationState` call grows the state list of the
group by one and leaves the group's active-state index equal to the index of
the newly added state, which is the last position of the grown list; iterating
this, after n successful adds with no explicit set the active state is n-1.
The hypothesis is the bookkeeping invariant that `nstates` counts the stored
states (true for every ensemble built through `addTitratableGroup` and
`addTitrationState`). -/
theorem add_state_advances_active_to_last (self self1 : MCTitration) (g : ℕ)
    (pk re : ℚ) (cs : List ℚ) (pc : ℤ)
    (hinv : (self.titrationGroups.getD g default).nstates =
      (self.titrationGroups.getD g default).titration_states.length)
    (h : addTitrationState self g pk re cs pc = (Except.ok (), self1)) :
    (self1.titrationGroups.getD g default).titration_states.length =
      (self.titrationGroups.getD g default).titration_states.length + 1 ∧
    self1.titrationStates.get? g =
      some (some ((self1.titrationGroups.getD g default).titration_states.length - 1)) := by
  unfold addTitrationState at h
  split at h
  next hg =>
    split at h
    next hcs =>
      split at h
      next hts =>
        rw [Prod.mk.injEq] at h
        obtain ⟨-, h2⟩ := h
        subst h2
        dsimp only
        constructor
        · rw [getD_set_self _ _ _ _ hg]
          simp
        · rw [get?_set_self _ _ _ hts, getD_set_self _ _ _ _ hg, hinv]
          simp
      next hts =>
        rw [Prod.mk.injEq] at h
        exact Except.noConfusion h.1
    next hcs =>
      rw [Prod.mk.injEq] at h
      exact Except.noConfusion h.1
  next hg =>
    rw [Prod.mk.injEq] at h
    exact Except.noConfusion h.1

/-- The state `exMCT` reaches after a successful third `addTitrationState`. -/
def exMCTadded : MCTitration :=
  { exMCT with
      titrationGroups := [{ exGroup with
        titration_states := [exState0, exState1,
          { pKref := 0, relative_energy := 0, charges := [7], proton_count := 1 }]
        nstates := 3 }]
      titrationStates := [some 2] }

/-- Witness for C5: adding a third state to the example group moves the active
index to 2, the last position. -/
theorem add_state_advances_active_to_last_witness :
    (exMCTadded.titrationGroups.getD 0 default).titration_states.length =
      (exMCT.titrationGroups.getD 0 default).titration_states.length + 1 ∧
    exMCTadded.titrationStates.get? 0 =
      some (some ((exMCTadded.titrationGroups.getD 0 default).titration_states.length - 1)) := by
  refine add_state_advances_active_to_last exMCT exMCTadded 0 0 0 [7] 1 rfl ?_
  norm_num [addTitrationState, getNumTitratableGroups, exMCT, exMCTadded, exGroup,
    exState0, exState1]

/-- C6 (code bug): `addTitratableGroup` appends the new group at position
`n = len(self.titrationGroups)` but computes, stores and returns
`group_index = n + 1`: on an empty ensemble the call returns 1 while the new
group lives at index 0, and the returned id is immediately rejected as invalid
by the query methods. -/
theorem add_group_returned_id_off_by_one :
    emptyMCT.titrationGroups.length = 0 ∧
    (addTitratableGroup emptyMCT [0]).1 = Except.ok 1 ∧
    (addTitratableGroup emptyMCT [0]).2.titrationGroups.length = 1 ∧
    getTitrationState (addTitratableGroup emptyMCT [0]).2 1 =
      Except.error "Invalid titratable group requested." := by
  refine ⟨rfl, ?_, ?_, ?_⟩ <;>
    simp [addTitratableGroup, get14exceptions, findLastForce, get14exceptionsLoop,
      getTitrationState, getNumTitratableGroups, emptyMCT, exForce, List.range_succ]

/-- C9: `0 ≤ naccepted ≤ nattempted` holds after a statistics reset and is
preserved by every `update()` call, whatever its outcome, because each trial
increments `nattempted` by 1 and `naccepted` by at most 1. -/
theorem counters_invariant (kB ln10 : ℚ) (mexp : ℚ → ℚ)
    (ctx : List Force → ℚ × ℚ) (draws : ℕ → AttemptDraws) (self : MCTitration)
    (h : self.naccepted ≤ self.nattempted) :
    (resetStatistics self).naccepted ≤ (resetStatistics self).nattempted ∧
    (update kB ln10 mexp ctx draws self).2.naccepted ≤
      (update kB ln10 mexp ctx draws self).2.nattempted :=
  ⟨Nat.le_refl 0, updateLoop_counters kB ln10 mexp ctx draws _ self h⟩

/-- Witness for C9 at the concrete example run. -/
theorem counters_invariant_witness :
    (resetStatistics exMCT).naccepted ≤ (resetStatistics exMCT).nattempted ∧
    (update 1 0 exExp exCtx exDraws exMCT).2.naccepted ≤
      (update 1 0 exExp exCtx exDraws exMCT).2.nattempted :=
  counters_invariant 1 0 exExp exCtx exDraws exMCT (Nat.le_refl 0)

/-- Witness for C1: the concrete single-attempt run proposes the protonated
state, whose oracle energy is 1000 kT higher, the Metropolis test rejects, and
the state vector and counters behave as claimed. -/
theorem update_rejected_trial_restores_witness :
    exMCTafter.titrationStates = exMCT.titrationStates ∧
    exMCTafter.naccepted = exMCT.naccepted ∧
    exMCTafter.nattempted = exMCT.nattempted + 1 := by
  have hupd : update 1 0 exExp exCtx exDraws exMCT = (Except.ok (), exMCTafter) := by
    norm_num [update, updateLoop, updateAttempt, computeLogProbability, logPCorrections,
      proposeStates, restoreStates, setTitrationState, getNumTitrationStates,
      getNumTitratableGroups, updateForcesLoop, applyChargesToForce, updateExceptionsLoop,
      exMCT, exGroup, exForce, exState0, exState1, exCtx, exExp, exDraws, exMCTafter]
  refine update_rejected_trial_restores 1 0 exExp exCtx exDraws exMCT exMCTafter rfl hupd ?_
  intro lpi lpf h1 h2
  have e1 : computeLogProbability 1 0 exCtx exMCT = some 0 := by
    norm_num [computeLogProbability, logPCorrections, exMCT, exGroup, exForce,
      exState0, exCtx]
  have e2 : computeLogProbability 1 0 exCtx
      (proposeStates (exDraws 0) (exDraws 0).group_indices exMCT).2 = some (-1000) := by
    norm_num [computeLogProbability, logPCorrections, proposeStates, setTitrationState,
      getNumTitrationStates, getNumTitratableGroups, updateForcesLoop,
      applyChargesToForce, updateExceptionsLoop, exMCT, exGroup, exForce, exState0,
      exState1, exCtx, exDraws]
  rw [e1, Option.some.injEq] at h1
  rw [e2, Option.some.injEq] at h2
  subst h1
  subst h2
  norm_num [exDraws, exExp]

/-- Witness for C2 at the example ensemble (arbitrary rational stand-in for
`ln 10`). -/
theorem compute_log_probability_formula_witness :
    computeLogProbability 1 (23026 / 10000) exCtx exMCT =
      some (specLogProbability 1 (23026 / 10000) exCtx exMCT) := by
  refine compute_log_probability_formula 1 (23026 / 10000) exCtx exMCT
    (by norm_num [exMCT]) (by norm_num [exMCT]) ?_
  intro p hp
  have hp2 : p = (exGroup, some 0) := by
    simpa [exMCT] using hp
  subst hp2
  exact ⟨0, rfl, by norm_num [exGroup]⟩
